import Mathlib

/-!
Verification of the route/segment composition and geodesy engine of the
running-course planner (`src/script.js`).

The `App` class in `script.js` keeps four pieces of route state as private
fields: `#startLatLng`, `#lastPointLatLng`, `#segments` (a list of
`{ coords: [...] }` objects) and `#pathCoords` (the derived composed path).
We embed that state as the `Store` structure and each mutating method as a
pure function `Store → Store`.  Markers, polylines, the map object and the
info panel are pure rendering collaborators and carry no route state, so
they are not modelled.  Coordinates are modelled as real numbers; the
geodesic computation (`_distanceBetween`) uses real-valued `sin`, `cos`,
`sqrt` and the standard `atan2(y, x) = Complex.arg (x + y i)`.
-/

/-- Geographic point, the `{lat, lng}` object literal used throughout
`script.js`. -/
structure GeoPoint where
  lat : ℝ
  lng : ℝ

/-- A segment is the `coords` array of one `{ coords: [...] }` element of
`this.#segments` (`script.js` line 25). -/
abbrev Segment := List GeoPoint

/-- The route state of the `App` class: `#startLatLng`, `#lastPointLatLng`,
`#segments` and `#pathCoords` (`script.js` lines 21-27). -/
structure Store where
  startLatLng : Option GeoPoint
  lastPointLatLng : Option GeoPoint
  segments : List Segment
  pathCoords : List GeoPoint

/-- The initial state of a freshly constructed `App` (lines 21-27): every
field null or empty. -/
def emptyStore : Store :=
  { startLatLng := none, lastPointLatLng := none, segments := [], pathCoords := [] }

/-- Body of the `forEach` accumulator in `_rebuildPathFromSegments`
(lines 152-156): `if (seg.coords && seg.coords.length > 0) path = path.concat(seg.coords.slice(1))`. -/
def appendSegTail (path : List GeoPoint) (seg : Segment) : List GeoPoint :=
  if 0 < seg.length then path ++ seg.tail else path

/-- The composed path built by `_rebuildPathFromSegments` when a start point
is present (lines 150-156): start the accumulator at `[start]` and fold the
segments, appending each non-empty segment's coordinates minus its first. -/
def composeFromStart (st : GeoPoint) (segs : List Segment) : List GeoPoint :=
  segs.foldl appendSegTail [st]

/-- `_rebuildPathFromSegments` (lines 144-163).  With no start point it
clears `#pathCoords` and returns early; otherwise it recomposes
`#pathCoords` from the segments and sets `#lastPointLatLng` to the last
path point (falling back to the start point for an empty path, line 162). -/
def rebuildPathFromSegments (s : Store) : Store :=
  match s.startLatLng with
  | none => { s with pathCoords := [] }
  | some st =>
      let path := composeFromStart st s.segments
      { s with pathCoords := path,
               lastPointLatLng := if 0 < path.length then path.getLast? else some st }

/-- The response delivered to the `directionsService.route` completion
callback (line 117): either a non-`OK` status, or an `OK` status carrying
the resolved `overview_path` poly-line. -/
inductive RouteResponse where
  | failure
  | success (polyline : List GeoPoint)

/-- The completion callback inside `_addRouteSegment` (lines 117-141),
applied to the store when the asynchronous leg-resolution response arrives.
On a non-`OK` status it appends the straight-line segment
`[origin, destination]`; on `OK` with an empty `overview_path` it returns
without touching the store (line 135); on `OK` with a non-empty poly-line
it appends the resolved points.  Appending is `this.#segments.push(...)`
followed by `_rebuildPathFromSegments()`. -/
def addRouteSegment (origin destination : GeoPoint) (resp : RouteResponse)
    (s : Store) : Store :=
  match resp with
  | .failure =>
      rebuildPathFromSegments { s with segments := s.segments ++ [[origin, destination]] }
  | .success pl =>
      if pl.length = 0 then s
      else rebuildPathFromSegments { s with segments := s.segments ++ [pl] }

/-- `_onMapClick` (lines 73-101) restricted to its store effects.  With no
start point the click sets `#startLatLng`, `#lastPointLatLng` and
`#pathCoords = [latLng]` (the segments field is not touched).  Otherwise
the click records the new `#lastPointLatLng` (line 98) and issues an
asynchronous leg-resolution request whose eventual completion is modelled
separately by `addRouteSegment`. -/
def onMapClick (s : Store) (p : GeoPoint) : Store :=
  match s.startLatLng with
  | none => { s with startLatLng := some p, lastPointLatLng := some p, pathCoords := [p] }
  | some _ => { s with lastPointLatLng := some p }

/-- `_resetCourse` (lines 261-279): unconditionally clears all four route
fields (the marker/polyline removals are rendering only). -/
def resetCourse (_s : Store) : Store :=
  { startLatLng := none, lastPointLatLng := none, segments := [], pathCoords := [] }

/-- `_undoLastSegment` (lines 247-259): early return when `#startLatLng`
is null; delegate to `_resetCourse` when `#segments` is empty; otherwise
pop the last segment and recompose. -/
def undoLastSegment (s : Store) : Store :=
  match s.startLatLng with
  | none => s
  | some _ =>
      if s.segments.length = 0 then resetCourse s
      else rebuildPathFromSegments { s with segments := s.segments.dropLast }

/-- One track point of the exported document: the `<trkpt lat=.. lon=..>`
element with its `<ele>` and `<time>` children (lines 306-311). -/
structure TrkPt where
  lat : ℝ
  lon : ℝ
  ele : ℝ
  time : String

/-- The track document built by `_downloadGpx` (lines 292-315): a named,
timestamped track whose single track-segment holds one `TrkPt` per path
point.  The XML text layer itself (string formatting and the external
`DOMParser`) is modelled at this structural level; `points` is the
flattened list of all `trkpt` elements, exactly what
`getElementsByTagName('trkpt')` yields on the decode side (line 353). -/
structure GpxDoc where
  name : String
  time : String
  points : List TrkPt

/-- The document-building part of `_downloadGpx` (lines 300-313): one
`trkpt` per composed-path point, elevation fixed at 0, the single
timestamp repeated. -/
def encodeGpx (path : List GeoPoint) (t : String) : GpxDoc :=
  { name := "Running Course", time := t,
    points := path.map fun p => { lat := p.lat, lon := p.lng, ele := 0, time := t } }

/-- `_downloadGpx` (lines 283-329) including its precondition check
(line 284): with no start point or fewer than 2 path points it alerts and
produces no file. -/
def downloadGpx (s : Store) (t : String) : Option GpxDoc :=
  match s.startLatLng with
  | none => none
  | some _ =>
      if s.pathCoords.length < 2 then none
      else some (encodeGpx s.pathCoords t)

/-- Import failure conditions of `_loadGpxFromText` (lines 348-391): the
`catch` branch for text the markup parser rejects, and the early alert
when fewer than 2 `trkpt` elements are found (line 354). -/
inductive ImportError where
  | malformed
  | insufficientPoints

/-- `_loadGpxFromText` (lines 348-391).  The external `DOMParser` boundary
is modelled as the `Option GpxDoc` argument (`none` when the text is not
well-formed markup, routing to the `catch` branch).  With fewer than 2
track points the store is left untouched and the insufficient-points
condition is reported.  Otherwise the coordinates are extracted
(lines 359-362), the existing course is cleared via `_resetCourse`
(line 365), and the store is seeded with the imported path as a single
segment (lines 368-373). -/
def loadGpxFromText (parsed : Option GpxDoc) (s : Store) : Store × Option ImportError :=
  match parsed with
  | none => (s, some .malformed)
  | some doc =>
      if doc.points.length < 2 then (s, some .insufficientPoints)
      else
        let coords := doc.points.map fun pt => GeoPoint.mk pt.lat pt.lon
        ({ resetCourse s with
             pathCoords := coords,
             startLatLng := coords.head?,
             lastPointLatLng := coords.getLast?,
             segments := [coords] }, none)

/-- Degrees to radians, the `toRad` helper of `_distanceBetween`
(line 184). -/
noncomputable def toRad (deg : ℝ) : ℝ := deg * Real.pi / 180

/-- The JavaScript `Math.atan2(y, x)`, identified with the argument of the
complex number `x + y i`. -/
noncomputable def atan2 (y x : ℝ) : ℝ := Complex.arg (x + y * Complex.I)

/-- The haversine intermediate `a` of `_distanceBetween` (lines 190-192). -/
noncomputable def haversineA (p1 p2 : GeoPoint) : ℝ :=
  Real.sin (toRad (p2.lat - p1.lat) / 2) ^ 2 +
    Real.cos (toRad p1.lat) * Real.cos (toRad p2.lat) *
      Real.sin (toRad (p2.lng - p1.lng) / 2) ^ 2

/-- `_distanceBetween` (lines 182-196): mean Earth radius 6 371 000 m times
the central angle `c = 2 · atan2(√a, √(1-a))`. -/
noncomputable def distanceBetween (p1 p2 : GeoPoint) : ℝ :=
  6371000 * (2 * atan2 (Real.sqrt (haversineA p1 p2)) (Real.sqrt (1 - haversineA p1 p2)))

/-- The summation loop of `_getTotalDistanceKm` (lines 201-207), translated
to structural recursion: the sum of `_distanceBetween` over consecutive
pairs of the path. -/
noncomputable def sumConsecutive : List GeoPoint → ℝ
  | p :: q :: rest => distanceBetween p q + sumConsecutive (q :: rest)
  | _ => 0

/-- `_getTotalDistanceKm` (lines 198-209): 0 for paths shorter than 2,
otherwise the consecutive-pair distance sum divided by 1000. -/
noncomputable def getTotalDistanceKm (path : List GeoPoint) : ℝ :=
  if path.length < 2 then 0 else sumConsecutive path / 1000

/-- A geographic point with coordinates in the valid ranges of the data
model (spec section 3): latitude in [-90, 90], longitude in [-180, 180]. -/
def ValidGeoPoint (p : GeoPoint) : Prop :=
  -90 ≤ p.lat ∧ p.lat ≤ 90 ∧ -180 ≤ p.lng ∧ p.lng ≤ 180

/-- States of the route store reachable by any interleaving of the code's
store-mutating operations: initial state, map clicks, leg-resolution
completions (which the code applies unconditionally, whenever the response
arrives), undo, reset and import. -/
inductive Reachable : Store → Prop where
  | init : Reachable emptyStore
  | click (s : Store) (p : GeoPoint) : Reachable s → Reachable (onMapClick s p)
  | complete (s : Store) (o d : GeoPoint) (resp : RouteResponse) :
      Reachable s → Reachable (addRouteSegment o d resp s)
  | undo (s : Store) : Reachable s → Reachable (undoLastSegment s)
  | reset (s : Store) : Reachable s → Reachable (resetCourse s)
  | load (s : Store) (parsed : Option GpxDoc) :
      Reachable s → Reachable (loadGpxFromText parsed s).1

/-- Reachability restricted to interleavings without stale completions: a
leg-resolution response is only applied while a start point is present
(i.e. no undo/reset intervened between request and response). -/
inductive ReachableNS : Store → Prop where
  | init : ReachableNS emptyStore
  | click (s : Store) (p : GeoPoint) : ReachableNS s → ReachableNS (onMapClick s p)
  | complete (s : Store) (o d : GeoPoint) (resp : RouteResponse) :
      ReachableNS s → s.startLatLng ≠ none → ReachableNS (addRouteSegment o d resp s)
  | undo (s : Store) : ReachableNS s → ReachableNS (undoLastSegment s)
  | reset (s : Store) : ReachableNS s → ReachableNS (resetCourse s)
  | load (s : Store) (parsed : Option GpxDoc) :
      ReachableNS s → ReachableNS (loadGpxFromText parsed s).1

/-- Concrete point (0, 0) used in witnesses. -/
def p00 : GeoPoint := ⟨0, 0⟩

/-- Concrete point (1, 1) used in witnesses. -/
def p11 : GeoPoint := ⟨1, 1⟩

/-- Concrete point (2, 2) used in witnesses. -/
def p22 : GeoPoint := ⟨2, 2⟩

/-- The store right after a first click at (0,0): start set, no segments. -/
def startOnlyStore : Store :=
  { startLatLng := some p00, lastPointLatLng := some p00, segments := [], pathCoords := [p00] }

/-- A store holding exactly one resolved segment. -/
def oneSegStore : Store :=
  { startLatLng := some p00, lastPointLatLng := some p11,
    segments := [[p00, p11]], pathCoords := [p00, p11] }

/-- A store holding two resolved segments. -/
def twoSegStore : Store :=
  { startLatLng := some p00, lastPointLatLng := some p22,
    segments := [[p00, p11], [p11, p22]], pathCoords := [p00, p11, p22] }

-- Basic frame lemmas about the compositor.

/-- Recomposition never changes the start point. -/
theorem rebuild_startLatLng (s : Store) :
    (rebuildPathFromSegments s).startLatLng = s.startLatLng := by
  unfold rebuildPathFromSegments
  cases s.startLatLng <;> simp

/-- Recomposition never changes the segment list. -/
theorem rebuild_segments (s : Store) :
    (rebuildPathFromSegments s).segments = s.segments := by
  unfold rebuildPathFromSegments
  cases s.startLatLng <;> simp

-- ---------------------------------------------------------------------
-- C1.  Completion outcomes of a leg-resolution response.
-- ---------------------------------------------------------------------

/-- C1 (counterexample): the claim says every completed leg-resolution
response appends exactly one segment, with `[origin, destination]` as the
fallback on success with an empty poly-line.  On the store produced by a
first click, an `OK` response whose `overview_path` is empty returns early
(`script.js` line 135) and appends nothing: the segment count stays 0
instead of growing by one. -/
theorem emptySuccess_appends_no_segment :
    (addRouteSegment p00 p11 (RouteResponse.success []) startOnlyStore).segments = [] ∧
      ¬ (addRouteSegment p00 p11 (RouteResponse.success []) startOnlyStore).segments.length
          = startOnlyStore.segments.length + 1 := by
  constructor
  · rfl
  · simp [addRouteSegment, startOnlyStore]

/-- C1 (amended): for every completed leg-resolution response, on a
non-`OK` status the controller appends the straight-line segment
`[origin, destination]`; on `OK` with a non-empty poly-line it appends the
resolved points; on `OK` with an empty poly-line it appends nothing and
leaves the store exactly unchanged. -/
theorem addRouteSegment_outcome (o d : GeoPoint) (s : Store) (resp : RouteResponse) :
    (resp = RouteResponse.failure →
        (addRouteSegment o d resp s).segments = s.segments ++ [[o, d]]) ∧
    (∀ pl, resp = RouteResponse.success pl → pl ≠ [] →
        (addRouteSegment o d resp s).segments = s.segments ++ [pl]) ∧
    (resp = RouteResponse.success [] → addRouteSegment o d resp s = s) := by
  refine ⟨?_, ?_, ?_⟩
  · rintro rfl
    simp [addRouteSegment, rebuild_segments]
  · rintro pl rfl hne
    have hlen : ¬ pl.length = 0 := by simpa using hne
    simp [addRouteSegment, hlen, rebuild_segments]
  · rintro rfl
    simp [addRouteSegment]

/-- Witness for C1: concrete instances of the failure and non-empty
success outcomes. -/
theorem addRouteSegment_outcome_witness :
    (addRouteSegment p00 p11 RouteResponse.failure startOnlyStore).segments = [[p00, p11]] ∧
      (addRouteSegment p00 p11 (RouteResponse.success [p11]) startOnlyStore).segments = [[p11]] := by
  constructor
  · have h := (addRouteSegment_outcome p00 p11 startOnlyStore RouteResponse.failure).1 rfl
    simpa [startOnlyStore] using h
  · have h := (addRouteSegment_outcome p00 p11 startOnlyStore
      (RouteResponse.success [p11])).2.1 [p11] rfl (by simp)
    simpa [startOnlyStore] using h

-- ---------------------------------------------------------------------
-- C2.  Stale completions after reset are NOT ignored by the code.
-- ---------------------------------------------------------------------

/-- C2 (code bug): a leg-resolution response that arrives after
`_resetCourse` is not discarded.  Starting from a one-segment course,
reset empties the store (start absent); a stale failure response for a
request issued before the reset still pushes its straight-line segment
into the emptied store (`script.js` line 123 runs unconditionally), so the
store is modified — the segment list becomes non-empty with no start
point — contradicting the spec's rule that a stale completion is silently
discarded. -/
theorem staleCompletion_mutates_reset_store :
    (resetCourse oneSegStore).startLatLng = none ∧
      (resetCourse oneSegStore).segments = [] ∧
      (addRouteSegment p00 p11 RouteResponse.failure (resetCourse oneSegStore)).segments
        = [[p00, p11]] := by
  refine ⟨rfl, rfl, ?_⟩
  rfl

-- ---------------------------------------------------------------------
-- C7.  Undo semantics.
-- ---------------------------------------------------------------------

/-- C7: `undo()` on a store with a start point and a non-empty segment
list removes exactly the last segment and keeps the start; on a store with
the start set and no segments it yields the fully empty store (the result
of `reset()`); on a store with nothing set it is a no-op; and from a store
with exactly one segment, one `undo()` yields a start-only store and a
second `undo()` yields the fully empty store. -/
theorem undo_semantics :
    (∀ s : Store, s.startLatLng ≠ none → s.segments ≠ [] →
        (undoLastSegment s).startLatLng = s.startLatLng ∧
          (undoLastSegment s).segments = s.segments.dropLast) ∧
    (∀ s : Store, s.startLatLng ≠ none → s.segments = [] →
        undoLastSegment s = emptyStore ∧ undoLastSegment s = resetCourse s) ∧
    (∀ s : Store, s.startLatLng = none → undoLastSegment s = s) ∧
    (∀ s : Store, s.startLatLng ≠ none → s.segments.length = 1 →
        (undoLastSegment s).startLatLng = s.startLatLng ∧
          (undoLastSegment s).segments = [] ∧
          undoLastSegment (undoLastSegment s) = emptyStore) := by
  have hpop : ∀ s : Store, s.startLatLng ≠ none → s.segments ≠ [] →
      (undoLastSegment s).startLatLng = s.startLatLng ∧
        (undoLastSegment s).segments = s.segments.dropLast := by
    intro s hs hseg
    unfold undoLastSegment
    cases hstart : s.startLatLng with
    | none => exact absurd hstart hs
    | some st =>
      have hlen : ¬ s.segments.length = 0 := by simpa using hseg
      simp [hlen, rebuild_startLatLng, rebuild_segments, hstart]
  have hempty : ∀ s : Store, s.startLatLng ≠ none → s.segments = [] →
      undoLastSegment s = emptyStore ∧ undoLastSegment s = resetCourse s := by
    intro s hs hseg
    unfold undoLastSegment
    cases hstart : s.startLatLng with
    | none => exact absurd hstart hs
    | some st =>
      simp [hseg, resetCourse, emptyStore]
  refine ⟨hpop, hempty, ?_, ?_⟩
  · intro s hs
    unfold undoLastSegment
    rw [hs]
  · intro s hs hone
    have hne : s.segments ≠ [] := by
      intro h
      rw [h] at hone
      simp at hone
    obtain ⟨h1, h2⟩ := hpop s hs hne
    have hdrop : s.segments.dropLast = [] := by
      have := List.length_dropLast s.segments
      rw [hone] at this
      simpa using List.length_eq_zero.mp (by simpa using this)
    refine ⟨h1, by rw [h2, hdrop], ?_⟩
    have hs' : (undoLastSegment s).startLatLng ≠ none := by rw [h1]; exact hs
    exact (hempty (undoLastSegment s) hs' (by rw [h2, hdrop])).1

/-- Witness for C7: undoing a concrete one-segment store yields the
start-only configuration, and undoing again yields the empty store. -/
theorem undo_semantics_witness :
    (undoLastSegment oneSegStore).startLatLng = oneSegStore.startLatLng ∧
      (undoLastSegment oneSegStore).segments = [] ∧
      undoLastSegment (undoLastSegment oneSegStore) = emptyStore := by
  exact undo_semantics.2.2.2 oneSegStore (by simp [oneSegStore]) (by simp [oneSegStore])

-- ---------------------------------------------------------------------
-- C10.  Frame property of undo.
-- ---------------------------------------------------------------------

/-- C10: on every store with a non-empty segment list, `undo()` leaves the
start point unchanged and leaves every segment other than the last one
unchanged (the prefix of all but the last stored segment is preserved). -/
theorem undo_frame (s : Store) (h : s.segments ≠ []) :
    (undoLastSegment s).startLatLng = s.startLatLng ∧
      (undoLastSegment s).segments.take (s.segments.length - 1)
        = s.segments.take (s.segments.length - 1) := by
  cases hstart : s.startLatLng with
  | none =>
    constructor
    · simp [undoLastSegment, hstart]
    · simp [undoLastSegment, hstart]
  | some st =>
    have hlen : ¬ s.segments.length = 0 := by simpa using h
    constructor
    · simp [undoLastSegment, hstart, hlen, rebuild_startLatLng]
    · simp only [undoLastSegment, hstart, hlen, if_false, rebuild_segments]
      rw [List.dropLast_eq_take, List.take_take]
      simp

/-- Witness for C10: undoing a concrete two-segment store keeps the start
point and the first segment. -/
theorem undo_frame_witness :
    (undoLastSegment twoSegStore).startLatLng = twoSegStore.startLatLng ∧
      (undoLastSegment twoSegStore).segments.take (twoSegStore.segments.length - 1)
        = twoSegStore.segments.take (twoSegStore.segments.length - 1) :=
  undo_frame twoSegStore (by simp [twoSegStore])

-- ---------------------------------------------------------------------
-- C3.  Store invariant over reachable states.
-- ---------------------------------------------------------------------

/-- C3 (counterexample): the claimed invariant "start absent iff segments
empty" fails on a reachable state.  After the very first click
(`script.js` lines 77-93) the start point is present while the segment
list is still empty, so the direction "segments empty implies start
absent" is violated. -/
theorem firstClick_breaks_iff_invariant :
    Reachable (onMapClick emptyStore p00) ∧
      ¬ ((onMapClick emptyStore p00).startLatLng = none ↔
          (onMapClick emptyStore p00).segments = []) := by
  constructor
  · exact Reachable.click emptyStore p00 Reachable.init
  · simp [onMapClick, emptyStore]

/-- Helper: a successful import always installs a present start point. -/
theorem load_success_start (doc : GpxDoc) (s : Store)
    (h : ¬ doc.points.length < 2) :
    (loadGpxFromText (some doc) s).1.startLatLng ≠ none := by
  unfold loadGpxFromText
  simp only [h, if_false]
  have hne : (doc.points.map fun pt => GeoPoint.mk pt.lat pt.lon) ≠ [] := by
    intro hcon
    have hlen := congrArg List.length hcon
    rw [List.length_map] at hlen
    simp only [List.length_nil] at hlen
    omega
  simpa [List.head?_eq_none_iff] using hne

/-- C3 (amended): restricted to interleavings without stale completions
(every leg-resolution response applied while the start point is present),
every reachable state satisfies the forward direction of the invariant: if
the start point is absent then the segment list is empty.  The converse
direction does not hold (see the counterexample), and without the no-stale
restriction even this direction fails because the code applies stale
completions (see the C2 bug). -/
theorem reachableNS_start_absent_segments_empty (s : Store)
    (hr : ReachableNS s) (hs : s.startLatLng = none) : s.segments = [] := by
  induction hr with
  | init => rfl
  | click s p _ ih =>
    cases hstart : s.startLatLng with
    | none =>
      have h1 : (onMapClick s p).startLatLng = some p := by simp [onMapClick, hstart]
      rw [h1] at hs
      simp at hs
    | some st =>
      have h1 : (onMapClick s p).startLatLng = some st := by simp [onMapClick, hstart]
      rw [h1] at hs
      simp at hs
  | complete s o d resp _ hguard ih =>
    cases resp with
    | failure =>
      exfalso
      apply hguard
      rw [← rebuild_startLatLng { s with segments := s.segments ++ [[o, d]] }]
      exact hs
    | success pl =>
      by_cases hpl : pl.length = 0
      · simp only [addRouteSegment, hpl, if_true] at hs ⊢
        exact ih hs
      · exfalso
        apply hguard
        simp only [addRouteSegment, hpl, if_false] at hs
        rw [← rebuild_startLatLng { s with segments := s.segments ++ [pl] }]
        exact hs
  | undo s _ ih =>
    cases hstart : s.startLatLng with
    | none =>
      have h1 : undoLastSegment s = s := by simp [undoLastSegment, hstart]
      rw [h1] at hs ⊢
      exact ih hs
    | some st =>
      by_cases hlen : s.segments.length = 0
      · simp [undoLastSegment, hstart, hlen, resetCourse]
      · have h1 : (undoLastSegment s).startLatLng = some st := by
          simp [undoLastSegment, hstart, hlen, rebuild_startLatLng]
        rw [h1] at hs
        simp at hs
  | reset s _ _ => rfl
  | load s parsed _ ih =>
    cases parsed with
    | none => exact ih hs
    | some doc =>
      by_cases hlt : doc.points.length < 2
      · simp only [loadGpxFromText, hlt, if_true] at hs ⊢
        exact ih hs
      · exact absurd hs (load_success_start doc s hlt)

/-- Witness for C3 (amended): the initial store is reachable without stale
completions, its start point is absent, and its segment list is empty. -/
theorem reachableNS_invariant_witness : emptyStore.segments = [] :=
  reachableNS_start_absent_segments_empty emptyStore ReachableNS.init rfl

-- ---------------------------------------------------------------------
-- C4.  Composed-path invariant.
-- ---------------------------------------------------------------------

/-- Helper: when every segment is non-empty, the compositor's fold appends
each segment's tail to the accumulator. -/
theorem foldl_appendSegTail (segs : List Segment)
    (h : ∀ seg ∈ segs, seg ≠ []) (init : List GeoPoint) :
    segs.foldl appendSegTail init = init ++ (segs.map List.tail).flatten := by
  induction segs generalizing init with
  | nil => simp
  | cons seg rest ih =>
    have hseg : seg ≠ [] := h seg (by simp)
    have hlen : 0 < seg.length := List.length_pos.mpr hseg
    have hrest : ∀ s ∈ rest, s ≠ [] := fun s hs => h s (by simp [hs])
    simp only [List.foldl_cons, appendSegTail, hlen, if_true]
    rw [ih hrest]
    simp [List.append_assoc]

/-- C4: recomposition (the body of `_rebuildPathFromSegments`, run after
every mutating store operation) yields the empty path when the start point
is absent; and when the start point is present and every stored segment is
a non-empty point sequence, it yields the start point followed by, for
each segment in order, all of that segment's points except its first, so
the composed path length is `1 + Σ (segment length - 1)`. -/
theorem rebuildPath_composition (s : Store) :
    (s.startLatLng = none → (rebuildPathFromSegments s).pathCoords = []) ∧
    (∀ st, s.startLatLng = some st → (∀ seg ∈ s.segments, seg ≠ []) →
        (rebuildPathFromSegments s).pathCoords
            = st :: (s.segments.map List.tail).flatten ∧
          (rebuildPathFromSegments s).pathCoords.length
            = 1 + (s.segments.map fun seg => seg.length - 1).sum) := by
  constructor
  · intro hs
    simp [rebuildPathFromSegments, hs]
  · intro st hs hne
    have hpath : (rebuildPathFromSegments s).pathCoords
        = st :: (s.segments.map List.tail).flatten := by
      simp only [rebuildPathFromSegments, hs]
      rw [composeFromStart, foldl_appendSegTail s.segments hne]
      simp
    refine ⟨hpath, ?_⟩
    rw [hpath]
    simp only [List.length_cons, List.length_flatten, List.map_map]
    have hmap : (s.segments.map (List.length ∘ List.tail))
        = s.segments.map fun seg => seg.length - 1 := by
      apply List.map_congr_left
      intro seg _
      simp [List.length_tail]
    rw [hmap]
    omega

/-- Witness for C4: recomposition of a concrete two-segment store, and of
a store with no start point. -/
theorem rebuildPath_composition_witness :
    (rebuildPathFromSegments emptyStore).pathCoords = [] ∧
      (rebuildPathFromSegments twoSegStore).pathCoords
          = p00 :: ([[p00, p11], [p11, p22]].map List.tail).flatten ∧
      (rebuildPathFromSegments twoSegStore).pathCoords.length
          = 1 + ([[p00, p11], [p11, p22]].map fun seg => seg.length - 1).sum := by
  refine ⟨(rebuildPath_composition emptyStore).1 rfl, ?_, ?_⟩
  · exact ((rebuildPath_composition twoSegStore).2 p00 rfl (by simp [twoSegStore])).1
  · exact ((rebuildPath_composition twoSegStore).2 p00 rfl (by simp [twoSegStore])).2

-- ---------------------------------------------------------------------
-- C6.  Track-file round trip.
-- ---------------------------------------------------------------------

/-- C6: for every path of at least 2 points and every timestamp, decoding
the track document produced by encoding the path succeeds and yields
exactly the original point sequence (elevation and time fields play no
role in the decoded coordinates), regardless of the store the import runs
against. -/
theorem gpx_round_trip (path : List GeoPoint) (t : String) (s : Store)
    (h : 2 ≤ path.length) :
    (loadGpxFromText (some (encodeGpx path t)) s).2 = none ∧
      (loadGpxFromText (some (encodeGpx path t)) s).1.pathCoords = path := by
  have hlen : ¬ (encodeGpx path t).points.length < 2 := by
    simp [encodeGpx]
    omega
  have hcoords : ((encodeGpx path t).points.map fun pt => GeoPoint.mk pt.lat pt.lon)
      = path := by
    simp only [encodeGpx, List.map_map]
    exact List.map_id'' (fun p => rfl) path
  constructor
  · simp [loadGpxFromText, hlen]
  · simp only [loadGpxFromText, hlen, if_false]
    exact hcoords

/-- Witness for C6: round-tripping a concrete two-point path. -/
theorem gpx_round_trip_witness :
    (loadGpxFromText (some (encodeGpx [p00, p11] "2024-01-01T00:00:00.000Z")) emptyStore).2
        = none ∧
      (loadGpxFromText (some (encodeGpx [p00, p11] "2024-01-01T00:00:00.000Z")) emptyStore).1.pathCoords
        = [p00, p11] :=
  gpx_round_trip [p00, p11] "2024-01-01T00:00:00.000Z" emptyStore (by simp)

-- ---------------------------------------------------------------------
-- C8.  Import is all-or-nothing.
-- ---------------------------------------------------------------------

/-- C8: import either fully succeeds or fails without any effect.  Text
rejected by the markup parser fails with the malformed condition; a parsed
document with fewer than 2 track points fails with the insufficient-points
condition; and in every failure case the store is returned exactly as it
was. -/
theorem import_all_or_nothing (parsed : Option GpxDoc) (s : Store) :
    ((loadGpxFromText parsed s).2 ≠ none → (loadGpxFromText parsed s).1 = s) ∧
    (parsed = none → (loadGpxFromText parsed s).2 = some ImportError.malformed) ∧
    (∀ doc, parsed = some doc → doc.points.length < 2 →
        (loadGpxFromText parsed s).2 = some ImportError.insufficientPoints) := by
  refine ⟨?_, ?_, ?_⟩
  · intro herr
    cases parsed with
    | none => rfl
    | some doc =>
      by_cases hlt : doc.points.length < 2
      · simp [loadGpxFromText, hlt]
      · exfalso
        apply herr
        simp [loadGpxFromText, hlt]
  · rintro rfl
    rfl
  · rintro doc rfl hlt
    simp [loadGpxFromText, hlt]

/-- Witness for C8: malformed text and a one-point document both fail with
the respective conditions and leave a concrete store untouched. -/
theorem import_all_or_nothing_witness :
    (loadGpxFromText none oneSegStore).2 = some ImportError.malformed ∧
      (loadGpxFromText none oneSegStore).1 = oneSegStore ∧
      (loadGpxFromText (some (encodeGpx [p00] "t")) oneSegStore).2
          = some ImportError.insufficientPoints ∧
      (loadGpxFromText (some (encodeGpx [p00] "t")) oneSegStore).1 = oneSegStore := by
  refine ⟨(import_all_or_nothing none oneSegStore).2.1 rfl,
    (import_all_or_nothing none oneSegStore).1 (by simp [loadGpxFromText]),
    (import_all_or_nothing (some (encodeGpx [p00] "t")) oneSegStore).2.2
      (encodeGpx [p00] "t") rfl (by simp [encodeGpx]),
    (import_all_or_nothing (some (encodeGpx [p00] "t")) oneSegStore).1 ?_⟩
  simp [loadGpxFromText, encodeGpx]

-- ---------------------------------------------------------------------
-- Geodesic distance lemmas.
-- ---------------------------------------------------------------------

/-- Unfolding equation for the empty path. -/
theorem sumConsecutive_nil : sumConsecutive [] = 0 := rfl

/-- Unfolding equation for a one-point path. -/
theorem sumConsecutive_single (p : GeoPoint) : sumConsecutive [p] = 0 := rfl

/-- Unfolding equation for a path with at least two points. -/
theorem sumConsecutive_cons_cons (p q : GeoPoint) (rest : List GeoPoint) :
    sumConsecutive (p :: q :: rest) = distanceBetween p q + sumConsecutive (q :: rest) := rfl

/-- The haversine intermediate of a point with itself is 0. -/
theorem haversineA_self (p : GeoPoint) : haversineA p p = 0 := by
  unfold haversineA toRad
  simp

/-- The haversine intermediate is symmetric in its two points. -/
theorem haversineA_comm (p q : GeoPoint) : haversineA p q = haversineA q p := by
  unfold haversineA toRad
  rw [show (q.lat - p.lat) * Real.pi / 180 / 2 = -((p.lat - q.lat) * Real.pi / 180 / 2) by ring,
    show (q.lng - p.lng) * Real.pi / 180 / 2 = -((p.lng - q.lng) * Real.pi / 180 / 2) by ring,
    Real.sin_neg, Real.sin_neg]
  ring

/-- The distance of a point to itself is 0: the haversine intermediate is
0, so the central angle is `2 · atan2(0, 1) = 2 · arg(1) = 0`. -/
theorem distanceBetween_self (p : GeoPoint) : distanceBetween p p = 0 := by
  unfold distanceBetween
  rw [haversineA_self]
  simp [atan2]

/-- The pairwise distance is symmetric. -/
theorem distanceBetween_comm (p q : GeoPoint) : distanceBetween p q = distanceBetween q p := by
  unfold distanceBetween
  rw [haversineA_comm]

/-- Latitudes in [-90, 90] map to radians in [-π/2, π/2], where the cosine
is non-negative. -/
theorem cos_toRad_nonneg (lat : ℝ) (h1 : -90 ≤ lat) (h2 : lat ≤ 90) :
    0 ≤ Real.cos (toRad lat) := by
  apply Real.cos_nonneg_of_mem_Icc
  rw [Set.mem_Icc]
  unfold toRad
  constructor
  · nlinarith [Real.pi_pos]
  · nlinarith [Real.pi_pos]

/-- Core trigonometric bound: the haversine intermediate in radian form is
at most 1 whenever both latitude cosines are non-negative. -/
theorem haversine_radian_le_one (u v w : ℝ) (hu : 0 ≤ Real.cos u) (hv : 0 ≤ Real.cos v) :
    Real.sin ((v - u) / 2) ^ 2 + Real.cos u * Real.cos v * Real.sin (w / 2) ^ 2 ≤ 1 := by
  have h1 : Real.sin ((v - u) / 2) ^ 2 = 1 / 2 - Real.cos (v - u) / 2 := by
    have h := Real.sin_sq_eq_half_sub ((v - u) / 2)
    rwa [show 2 * ((v - u) / 2) = v - u by ring] at h
  have h2 : Real.sin (w / 2) ^ 2 = 1 / 2 - Real.cos w / 2 := by
    have h := Real.sin_sq_eq_half_sub (w / 2)
    rwa [show 2 * (w / 2) = w by ring] at h
  have h3 : Real.cos (v - u) = Real.cos v * Real.cos u + Real.sin v * Real.sin u :=
    Real.cos_sub v u
  have h4 := Real.neg_one_le_cos w
  have h6 := Real.sin_sq_add_cos_sq u
  have h7 := Real.sin_sq_add_cos_sq v
  nlinarith [sq_nonneg (Real.sin u + Real.sin v), sq_nonneg (Real.cos u - Real.cos v),
    mul_nonneg hu hv, mul_nonneg (mul_nonneg hu hv) (by linarith : (0:ℝ) ≤ 1 + Real.cos w)]

/-- For valid coordinates the haversine intermediate is non-negative:
both square roots in `_distanceBetween` receive a non-negative radicand on
this side. -/
theorem haversineA_nonneg (p1 p2 : GeoPoint)
    (h1 : ValidGeoPoint p1) (h2 : ValidGeoPoint p2) : 0 ≤ haversineA p1 p2 := by
  obtain ⟨h1a, h1b, _, _⟩ := h1
  obtain ⟨h2a, h2b, _, _⟩ := h2
  have hu := cos_toRad_nonneg p1.lat h1a h1b
  have hv := cos_toRad_nonneg p2.lat h2a h2b
  unfold haversineA
  have ht : 0 ≤ Real.sin (toRad (p2.lng - p1.lng) / 2) ^ 2 := sq_nonneg _
  nlinarith [sq_nonneg (Real.sin (toRad (p2.lat - p1.lat) / 2)), mul_nonneg hu hv]

/-- For valid coordinates the haversine intermediate is at most 1: the
radicand `1 - a` of the second square root in `_distanceBetween` is also
non-negative. -/
theorem haversineA_le_one (p1 p2 : GeoPoint)
    (h1 : ValidGeoPoint p1) (h2 : ValidGeoPoint p2) : haversineA p1 p2 ≤ 1 := by
  obtain ⟨h1a, h1b, _, _⟩ := h1
  obtain ⟨h2a, h2b, _, _⟩ := h2
  have hu := cos_toRad_nonneg p1.lat h1a h1b
  have hv := cos_toRad_nonneg p2.lat h2a h2b
  have key := haversine_radian_le_one (toRad p1.lat) (toRad p2.lat)
    (toRad (p2.lng - p1.lng)) hu hv
  have harg : toRad (p2.lat - p1.lat) / 2 = (toRad p2.lat - toRad p1.lat) / 2 := by
    unfold toRad
    ring
  unfold haversineA
  rw [harg]
  exact key

/-- The recursive consecutive-pair sum agrees with the sum over the zip of
the path with its own tail. -/
theorem sumConsecutive_eq_pairSum : ∀ l : List GeoPoint,
    sumConsecutive l = ((l.zip l.tail).map fun pq => distanceBetween pq.1 pq.2).sum
  | [] => by simp [sumConsecutive_nil]
  | [p] => by simp [sumConsecutive_single]
  | p :: q :: rest => by
    rw [sumConsecutive_cons_cons, sumConsecutive_eq_pairSum (q :: rest)]
    simp [List.zip_cons_cons]

/-- Appending one point to a path adds the distance from the old last
point (if any) to the new point. -/
theorem sumConsecutive_append_single : ∀ (l : List GeoPoint) (x : GeoPoint),
    sumConsecutive (l ++ [x])
      = sumConsecutive l + (l.getLast?).elim 0 (fun y => distanceBetween y x)
  | [], x => by simp [sumConsecutive_nil, sumConsecutive_single]
  | [p], x => by
    simp [sumConsecutive_single, sumConsecutive_cons_cons, sumConsecutive_nil]
  | p :: q :: rest, x => by
    rw [show (p :: q :: rest) ++ [x] = p :: ((q :: rest) ++ [x]) from rfl]
    rw [show p :: ((q :: rest) ++ [x]) = p :: q :: (rest ++ [x]) from rfl]
    rw [sumConsecutive_cons_cons]
    rw [show q :: (rest ++ [x]) = (q :: rest) ++ [x] from rfl]
    rw [sumConsecutive_append_single (q :: rest) x, sumConsecutive_cons_cons,
      List.getLast?_cons_cons, add_assoc]

/-- The consecutive-pair sum is invariant under path reversal, by symmetry
of the pairwise distance. -/
theorem sumConsecutive_reverse : ∀ l : List GeoPoint,
    sumConsecutive l.reverse = sumConsecutive l
  | [] => rfl
  | p :: l => by
    rw [List.reverse_cons, sumConsecutive_append_single, sumConsecutive_reverse l,
      List.getLast?_reverse]
    cases l with
    | nil => simp [sumConsecutive_nil, sumConsecutive_single]
    | cons q rest =>
      rw [sumConsecutive_cons_cons]
      simp only [List.head?_cons, Option.elim]
      rw [distanceBetween_comm q p]
      ring

-- ---------------------------------------------------------------------
-- C5.  Distance calculator contract.
-- ---------------------------------------------------------------------

/-- C5: `_getTotalDistanceKm` returns 0 for every path shorter than 2
points; for every path of at least 2 points it returns the sum over
consecutive point pairs of the haversine distance (mean Earth radius
6 371 000 m, built into `distanceBetween`) divided by 1000; the distance
of any point to itself is 0; and for valid coordinates the haversine
intermediate lies in [0, 1], so both square roots in `_distanceBetween`
receive non-negative radicands — the real-valued counterpart of "never
produces NaN for valid inputs". -/
theorem distance_contract :
    (∀ path : List GeoPoint, path.length < 2 → getTotalDistanceKm path = 0) ∧
    (∀ path : List GeoPoint, 2 ≤ path.length →
        getTotalDistanceKm path
          = ((path.zip path.tail).map fun pq => distanceBetween pq.1 pq.2).sum / 1000) ∧
    (∀ p : GeoPoint, distanceBetween p p = 0) ∧
    (∀ p1 p2 : GeoPoint, ValidGeoPoint p1 → ValidGeoPoint p2 →
        0 ≤ haversineA p1 p2 ∧ haversineA p1 p2 ≤ 1) := by
  refine ⟨?_, ?_, distanceBetween_self, ?_⟩
  · intro path h
    simp [getTotalDistanceKm, h]
  · intro path h
    have hnot : ¬ path.length < 2 := by omega
    simp only [getTotalDistanceKm, hnot, if_false]
    rw [sumConsecutive_eq_pairSum]
  · intro p1 p2 h1 h2
    exact ⟨haversineA_nonneg p1 p2 h1 h2, haversineA_le_one p1 p2 h1 h2⟩

/-- Witness for C5: concrete instances of each conjunct at (0,0) and
(1,1). -/
theorem distance_contract_witness :
    getTotalDistanceKm [p00] = 0 ∧
      getTotalDistanceKm [p00, p11]
        = ((([p00, p11]).zip ([p00, p11] : List GeoPoint).tail).map
            fun pq => distanceBetween pq.1 pq.2).sum / 1000 ∧
      distanceBetween p00 p00 = 0 ∧
      (0 ≤ haversineA p00 p11 ∧ haversineA p00 p11 ≤ 1) :=
  ⟨distance_contract.1 [p00] (by simp),
    distance_contract.2.1 [p00, p11] (by simp),
    distance_contract.2.2.1 p00,
    distance_contract.2.2.2 p00 p11 (by norm_num [ValidGeoPoint, p00])
      (by norm_num [ValidGeoPoint, p11])⟩

-- ---------------------------------------------------------------------
-- C9.  Reversal invariance of the total distance.
-- ---------------------------------------------------------------------

/-- C9: the total distance of every path equals the total distance of the
reversed path, because the pairwise haversine distance is symmetric in its
two arguments. -/
theorem totalDistance_reverse_invariant (path : List GeoPoint) :
    getTotalDistanceKm path.reverse = getTotalDistanceKm path := by
  unfold getTotalDistanceKm
  rw [List.length_reverse, sumConsecutive_reverse]
